import Mathlib

/-!
# tiltfive-diagnostic-cpp : `src/camera.cpp`

A shallow embedding of the polling helpers of `camera.cpp`
(`waitForService`, `waitForGlasses`, the counting loop of `readPoses`).

The program talks to the Tilt Five service through an SDK client.  The client
is embedded as an explicit state `σ`; every SDK call is a function
`σ → result × σ`.  What the program does to the outside world (calling the
query, sleeping, writing to `std::cout`) is recorded, in order, in a trace of
`Event`s carried next to the client state.  The unbounded `for (;;)` /
`while` loops take a fuel argument that bounds the number of iterations.
-/

namespace TiltFive

/-- Modelled from the spec: the SDK error classification `tiltfive::Error`
(declared in `include/TiltFiveNative.hpp`, which is not part of the sources).
`camera.cpp` names `kNoService`, `kSettingUnknown` and `kNotConnected`; the
spec adds a permission error; every other code is `kOther`. -/
inductive Error where
  | kNoService
  | kNotConnected
  | kSettingUnknown
  | kPermissionDenied
  | kOther (code : Nat)
  deriving DecidableEq, Repr

/-- The SDK type `tiltfive::Result<T>`: a value or an error. -/
abbrev Result (T : Type) := Except Error T

/-- The literal operator `operator""_ms` (camera.cpp:43-46): the literal `100_ms` is the duration
of 100 milliseconds. -/
def operator_ms (ms : Nat) : Nat := ms

/-- The things the program does to the outside world, in program order. -/
inductive Event where
  /-- The call `func(client)` inside `waitForService`. -/
  | call
  /-- The call `client->listGlasses()`. -/
  | listGlasses
  /-- The call `tiltfive::obtainGlasses(id, client)`. -/
  | obtainGlasses (id : String)
  /-- The call `std::this_thread::sleep_for(ms)`. -/
  | sleep (ms : Nat)
  /-- A write to `std::cout`. -/
  | print (s : String)
  deriving DecidableEq, Repr

/-- The client state together with the events performed so far (oldest
first). -/
structure World (σ : Type) where
  client : σ
  trace : List Event

/-- Append one event to the trace. -/
def World.emit {σ : Type} (w : World σ) (e : Event) : World σ :=
  { w with trace := w.trace ++ [e] }

/-- Is the event an invocation of the query? -/
def Event.isCall : Event → Bool
  | .call => true
  | _ => false

/-- The duration of a sleep event, nothing for the other events. -/
def Event.sleepMs : Event → Option Nat
  | .sleep ms => some ms
  | _ => none

/-- Is the event one of the two progress marks of `waitForService`? -/
def Event.isMark : Event → Bool
  | .print s => s == "Waiting for service..." || s == "."
  | _ => false

/-- Is the event a call of `listGlasses`? -/
def Event.isList : Event → Bool
  | .listGlasses => true
  | _ => false

/-- The glasses identifier of an `obtainGlasses` event. -/
def Event.obtained : Event → Option String
  | .obtainGlasses id => some id
  | _ => none

/-- Number of query invocations in a trace. -/
def calls (tr : List Event) : Nat := (tr.filter Event.isCall).length

/-- The durations of the sleeps of a trace, in order. -/
def sleepDurations (tr : List Event) : List Nat := tr.filterMap Event.sleepMs

/-- Number of sleeps in a trace. -/
def sleeps (tr : List Event) : Nat := (sleepDurations tr).length

/-- Total requested sleep time of a trace, in milliseconds. -/
def sleptMs (tr : List Event) : Nat := (sleepDurations tr).sum

/-- Number of progress marks in a trace. -/
def marks (tr : List Event) : Nat := (tr.filter Event.isMark).length

/-- Number of `listGlasses` calls in a trace. -/
def listCalls (tr : List Event) : Nat := (tr.filter Event.isList).length

/-- The identifiers passed to `obtainGlasses` in a trace, in order. -/
def obtainedIds (tr : List Event) : List String := tr.filterMap Event.obtained

/-! ## `waitForService` (camera.cpp:402-427) -/

/-- The two states of the runner.  `Polling` carries the local variable
`waitingForService`; `Done` carries the value handed to the caller. -/
inductive Runner (σ T : Type) where
  | Polling (waitingForService : Bool) (w : World σ)
  | Done (result : Result T) (w : World σ)

/-- One pass through the body of the `for (;;)` loop of `waitForService`
(camera.cpp:412-424). -/
def waitForServiceBody {σ T : Type} (func : World σ → Result T × World σ)
    (waitingForService : Bool) (w : World σ) : Runner σ T :=
  match func (w.emit Event.call) with
  | (Except.ok v, w1) => Runner.Done (Except.ok v) w1
  | (Except.error e, w1) =>
    if e ≠ Error.kNoService then
      Runner.Done (Except.error e) w1
    else
      let w2 := w1.emit (Event.print (if waitingForService then "." else "Waiting for service..."))
      let w3 := w2.emit (Event.sleep (operator_ms 100))
      Runner.Polling true w3

/-- The `for (;;)` loop of `waitForService`, at most `fuel` iterations. -/
def waitForServiceLoop {σ T : Type} (func : World σ → Result T × World σ) :
    Nat → Bool → World σ → Option (Result T × World σ)
  | 0, _, _ => none
  | fuel + 1, waitingForService, w =>
    match waitForServiceBody func waitingForService w with
    | Runner.Done result w1 => some (result, w1)
    | Runner.Polling waiting1 w1 => waitForServiceLoop func fuel waiting1 w1

/-- The function `waitForService` (camera.cpp:405-426): `waitingForService` starts as
`false`, then the loop runs. -/
def waitForService {σ T : Type} (fuel : Nat) (func : World σ → Result T × World σ)
    (w : World σ) : Option (Result T × World σ) :=
  waitForServiceLoop func fuel false w

/-- The runner as a machine: a `Polling` state executes the loop body once, a
`Done` state stays as it is. -/
def Runner.step {σ T : Type} (func : World σ → Result T × World σ) :
    Runner σ T → Runner σ T
  | Runner.Polling waitingForService w => waitForServiceBody func waitingForService w
  | Runner.Done result w => Runner.Done result w

/-- The initial state of the runner. -/
def Runner.init {σ T : Type} (w : World σ) : Runner σ T := Runner.Polling false w

/-- The machine after `n` steps from a given state. -/
def Runner.steps {σ T : Type} (func : World σ → Result T × World σ) :
    Nat → Runner σ T → Runner σ T
  | 0, r => r
  | n + 1, r => Runner.steps func n (Runner.step func r)

/-- The state of the runner after `n` steps from the initial state. -/
def Runner.run {σ T : Type} (func : World σ → Result T × World σ) (w : World σ)
    (n : Nat) : Runner σ T :=
  Runner.steps func n (Runner.init w)

/-- The value the caller has received in a runner state, if any. -/
def Runner.returned {σ T : Type} : Runner σ T → Option (Result T × World σ)
  | Runner.Polling _ _ => none
  | Runner.Done r w => some (r, w)

/-- The world of a runner state. -/
def Runner.world {σ T : Type} : Runner σ T → World σ
  | Runner.Polling _ w => w
  | Runner.Done _ w => w

/-- Is the runner still polling? -/
def Runner.isPolling {σ T : Type} : Runner σ T → Bool
  | Runner.Polling _ _ => true
  | Runner.Done _ _ => false

/-- The result of a runner, once it is done. -/
def Runner.result? {σ T : Type} : Runner σ T → Option (Result T)
  | Runner.Polling _ _ => none
  | Runner.Done r _ => some r

/-- A query as the spec describes it: an operation on the client that gives
an outcome and, apart from the client, touches nothing. -/
abbrev Query (σ T : Type) := σ → Result T × σ

/-- A query seen as the `func` argument of `waitForService`: it acts on the
client and leaves the trace alone. -/
def liftQuery {σ T : Type} (q : Query σ T) (w : World σ) : Result T × World σ :=
  ((q w.client).1, { w with client := (q w.client).2 })

/-- The client state after `n` invocations of the query. -/
def clientAfter {σ T : Type} (q : Query σ T) (s : σ) : Nat → σ
  | 0 => s
  | n + 1 => (q (clientAfter q s n)).2

/-- The outcome of invocation number `n` (counted from 0) of the query. -/
def outcome {σ T : Type} (q : Query σ T) (s : σ) (n : Nat) : Result T :=
  (q (clientAfter q s n)).1

/-- A query that replays a fixed list of outcomes, one per invocation; once
the list is used up it reports `kNotConnected`. -/
def scripted {T : Type} : Query (List (Result T)) T
  | [] => (Except.error Error.kNotConnected, [])
  | r :: rest => (r, rest)

/-- A query that reports `kNoService` on every invocation. -/
def neverReady {T : Type} : Query Unit T := fun _ => (Except.error Error.kNoService, ())

/-- The events of `k` consecutive passes of the loop body that all met the
transient error, the first of them entered with the flag `waiting`. -/
def retryTrace : Bool → Nat → List Event
  | _, 0 => []
  | waiting, k + 1 =>
    [Event.call, Event.print (if waiting then "." else "Waiting for service..."),
      Event.sleep (operator_ms 100)] ++ retryTrace true k

/-! ## `waitForGlasses` (camera.cpp:48-85) -/

/-- The two SDK operations `waitForGlasses` uses, as operations on the client
state: `client->listGlasses()` and `tiltfive::obtainGlasses(id, client)`.
Glasses are listed by their identifier strings; `G` is the glasses handle. -/
structure Sdk (σ G : Type) where
  listGlasses : σ → Result (List String) × σ
  obtainGlasses : String → σ → Result G × σ

/-- The call `client->listGlasses()`, recorded in the trace. -/
def callListGlasses {σ G : Type} (sdk : Sdk σ G) (w : World σ) :
    Result (List String) × World σ :=
  ((sdk.listGlasses w.client).1,
    { client := (sdk.listGlasses w.client).2, trace := w.trace ++ [Event.listGlasses] })

/-- The call `tiltfive::obtainGlasses(id, client)`, recorded in the trace. -/
def callObtainGlasses {σ G : Type} (sdk : Sdk σ G) (id : String) (w : World σ) :
    Result G × World σ :=
  ((sdk.obtainGlasses id w.client).1,
    { client := (sdk.obtainGlasses id w.client).2,
      trace := w.trace ++ [Event.obtainGlasses id] })

/-- The loop that prints the found glasses (camera.cpp:77-80). -/
def printFound {σ : Type} (w : World σ) (glassesList : List String) : World σ :=
  glassesList.foldl
    (fun acc glassesInstance => acc.emit (Event.print ("Found : " ++ glassesInstance ++ "\n"))) w

/-- The `while (glassesList->empty())` loop of `waitForGlasses` and the code
after it (camera.cpp:63-83), entered with the current `glassesList`; at most
`fuel` iterations of the loop. -/
def waitForGlassesLoop {σ G : Type} (sdk : Sdk σ G) :
    Nat → List String → World σ → Option (Result G × World σ)
  | _, front :: rest, w =>
    some (callObtainGlasses sdk front (printFound w (front :: rest)))
  | 0, [], _ => none
  | fuel + 1, [], w =>
    let w1 := w.emit (Event.print ".")
    let w2 := w1.emit (Event.sleep (operator_ms 100))
    match callListGlasses sdk w2 with
    | (Except.error e, w3) => some (Except.error e, w3)
    | (Except.ok glassesList, w3) => waitForGlassesLoop sdk fuel glassesList w3

/-- The function `waitForGlasses` (camera.cpp:53-84). -/
def waitForGlasses {σ G : Type} (sdk : Sdk σ G) (fuel : Nat) (w : World σ) :
    Option (Result G × World σ) :=
  let w0 := w.emit (Event.print "Looking for glasses...")
  match callListGlasses sdk w0 with
  | (Except.error e, w1) => some (Except.error e, w1)
  | (Except.ok glassesList, w1) => waitForGlassesLoop sdk fuel glassesList w1

/-- The events of `j` consecutive passes of the `while` loop of
`waitForGlasses`. -/
def emptyTrace : Nat → List Event
  | 0 => []
  | j + 1 => [Event.print ".", Event.sleep (operator_ms 100), Event.listGlasses] ++ emptyTrace j

/-- The "Found : ..." lines written for a list of glasses. -/
def foundTrace (glassesList : List String) : List Event :=
  glassesList.map (fun g => Event.print ("Found : " ++ g ++ "\n"))

/-- An SDK whose `listGlasses` replays a list of outcomes and whose
`obtainGlasses` hands back the identifier it was given. -/
def scriptedSdk : Sdk (List (Result (List String))) String where
  listGlasses := scripted
  obtainGlasses := fun id s => (Except.ok id, s)

/-! ## The counting loop of `readPoses` (camera.cpp:155-256) -/

/-- The things one pass of the `do ... while` loop of `readPoses` learns
from the SDK, OpenCV and the clock. -/
structure PassInput where
  /-- Whether `getLatestGlassesPose` gave a pose (`pose` is true). -/
  poseOk : Bool
  /-- The value `imageRead.error().value()`. -/
  imageErr : Int
  /-- The value returned by `cv::imwrite`. -/
  imwriteOk : Bool
  /-- The value `resubmitResult.error().value()`. -/
  resubmitErr : Int
  /-- The time `steady_clock::now() - start` at the loop test, in ms. -/
  elapsedMs : Nat

/-- The lines `readPoses` writes inside its loop.  The pose coordinates of the
"Image Success" line are floating point and are left out. -/
inductive PoseOut where
  /-- The line "Image Success s times out of c passes - ...". -/
  | imageSuccess (s c : Int) (poseOk : Bool)
  /-- The line "Image saved successfully as 'camera-frame.png'." -/
  | saved
  /-- The line "Error saving the image." -/
  | saveError
  /-- The line "** ERROR ON RESET ***". -/
  | resetError
  deriving DecidableEq, Repr

/-- The local variables of `readPoses` the loop updates, and the output so
far.  `count` and `successCount` are C `int`s; signed overflow is undefined,
so they are integers here.  `xPosDict` is keyed by a float and only feeds the
summary after the loop; it is left out. -/
structure PoseState where
  count : Int
  successCount : Int
  errorCodeCount : Int → Int
  out : List PoseOut

/-- The statement `errorCodeCount[key]++`. -/
def bump (m : Int → Int) (key : Int) : Int → Int :=
  fun x => if x = key then m x + 1 else m x

/-- The state before the loop (camera.cpp:169-172). -/
def PoseState.init : PoseState :=
  { count := 0, successCount := 0, errorCodeCount := fun _ => 0, out := [] }

/-- One pass through the body of the `do ... while` loop (camera.cpp:177-235). -/
def readPosesPass (inp : PassInput) (st : PoseState) : PoseState :=
  let count := st.count + 1
  let errorCodeCount := bump st.errorCodeCount inp.imageErr
  if inp.imageErr = 0 then
    let out1 := st.out ++ [PoseOut.imageSuccess st.successCount count inp.poseOk]
    let successCount := st.successCount + 1
    let out2 :=
      if successCount = 1 then
        out1 ++ [if inp.imwriteOk then PoseOut.saved else PoseOut.saveError]
      else out1
    let out3 := if inp.resubmitErr ≠ 0 then out2 ++ [PoseOut.resetError] else out2
    { count := count, successCount := successCount, errorCodeCount := errorCodeCount,
      out := out3 }
  else
    { count := count, successCount := st.successCount, errorCodeCount := errorCodeCount,
      out := st.out }

/-- The `do ... while ((now - start) < 20000_ms)` loop (camera.cpp:175-237),
one `PassInput` per pass; `none` when the inputs run out before the clock
does. -/
def readPosesLoop : List PassInput → PoseState → Option PoseState
  | [], _ => none
  | inp :: rest, st =>
    if inp.elapsedMs < operator_ms 20000 then readPosesLoop rest (readPosesPass inp st)
    else some (readPosesPass inp st)

/-- The function `readPoses` as far as its counters and loop output go:
`readyErr` is `readyResult.error().value()`, `T5_SUCCESS` the SDK constant it
is compared with (camera.cpp:157-162); when the glasses are not ready the
loop is not entered. -/
def readPoses (T5_SUCCESS readyErr : Int) (inputs : List PassInput) : Option PoseState :=
  if readyErr ≠ T5_SUCCESS then some PoseState.init
  else readPosesLoop inputs PoseState.init

/-- The state after a list of passes, whatever the clock says. -/
def runPasses (inputs : List PassInput) (st : PoseState) : PoseState :=
  inputs.foldl (fun acc inp => readPosesPass inp acc) st

/-- The number of passes of a list in which the image read succeeded. -/
def imageSuccesses (inputs : List PassInput) : Int :=
  ((inputs.filter (fun inp => decide (inp.imageErr = 0))).length : Int)

/-- The pairs `(s, c)` of the "Image Success" lines of an output. -/
def imageLines (out : List PoseOut) : List (Int × Int) :=
  out.filterMap (fun o => match o with
    | PoseOut.imageSuccess s c _ => some (s, c)
    | _ => none)

/-! ## Lemmas on traces and on the loop of `waitForService` -/

section helpers
variable {σ T : Type}

theorem calls_append (a b : List Event) : calls (a ++ b) = calls a + calls b := by
  simp [calls]

theorem sleepDurations_append (a b : List Event) :
    sleepDurations (a ++ b) = sleepDurations a ++ sleepDurations b := by
  simp [sleepDurations]

theorem marks_append (a b : List Event) : marks (a ++ b) = marks a + marks b := by
  simp [marks]

theorem calls_retryTrace (b : Bool) (k : Nat) : calls (retryTrace b k) = k := by
  induction k generalizing b with
  | zero => rfl
  | succ k ih =>
    rw [retryTrace, calls_append, ih]
    simp [calls, Event.isCall]
    omega

theorem sleepDurations_retryTrace (b : Bool) (k : Nat) :
    sleepDurations (retryTrace b k) = List.replicate k 100 := by
  induction k generalizing b with
  | zero => rfl
  | succ k ih =>
    rw [retryTrace, sleepDurations_append, ih]
    simp [sleepDurations, Event.sleepMs, operator_ms, List.replicate_succ]

theorem marks_retryTrace (b : Bool) (k : Nat) : marks (retryTrace b k) = k := by
  induction k generalizing b with
  | zero => rfl
  | succ k ih =>
    rw [retryTrace, marks_append, ih]
    cases b <;> simp [marks, Event.isMark] <;> omega

theorem body_transient (q : Query σ T) (b : Bool) (w : World σ)
    (h : outcome q w.client 0 = Except.error Error.kNoService) :
    waitForServiceBody (liftQuery q) b w =
      Runner.Polling true ⟨(q w.client).2, w.trace ++ retryTrace b 1⟩ := by
  simp only [outcome, clientAfter] at h
  simp [waitForServiceBody, liftQuery, World.emit, h, retryTrace]

theorem body_ok (q : Query σ T) (b : Bool) (w : World σ) (v : T)
    (h : outcome q w.client 0 = Except.ok v) :
    waitForServiceBody (liftQuery q) b w =
      Runner.Done (Except.ok v) ⟨(q w.client).2, w.trace ++ [Event.call]⟩ := by
  simp only [outcome, clientAfter] at h
  simp [waitForServiceBody, liftQuery, World.emit, h]

theorem body_error (q : Query σ T) (b : Bool) (w : World σ) (e : Error)
    (h : outcome q w.client 0 = Except.error e) (he : e ≠ Error.kNoService) :
    waitForServiceBody (liftQuery q) b w =
      Runner.Done (Except.error e) ⟨(q w.client).2, w.trace ++ [Event.call]⟩ := by
  simp only [outcome, clientAfter] at h
  simp [waitForServiceBody, liftQuery, World.emit, h, he]

theorem clientAfter_succ_left (q : Query σ T) (s : σ) (n : Nat) :
    clientAfter q s (n + 1) = clientAfter q (q s).2 n := by
  induction n with
  | zero => rfl
  | succ n ih => rw [clientAfter, ih]; rfl

theorem outcome_succ_left (q : Query σ T) (s : σ) (n : Nat) :
    outcome q s (n + 1) = outcome q (q s).2 n := by
  simp only [outcome, clientAfter_succ_left]

theorem retryTrace_succ_right (b : Bool) (k : Nat) :
    retryTrace b (k + 1) = retryTrace b 1 ++ retryTrace true k := by
  simp [retryTrace]

theorem loop_transient (q : Query σ T) (k : Nat) :
    ∀ (fuel : Nat) (b : Bool) (w : World σ),
      (∀ i, i < k → outcome q w.client i = Except.error Error.kNoService) →
      waitForServiceLoop (liftQuery q) (k + fuel) b w =
        waitForServiceLoop (liftQuery q) fuel (b || decide (0 < k))
          ⟨clientAfter q w.client k, w.trace ++ retryTrace b k⟩ := by
  induction k with
  | zero => intro fuel b w _; simp [clientAfter, retryTrace]
  | succ k ih =>
    intro fuel b w h
    have h0 := h 0 (Nat.succ_pos k)
    rw [show k + 1 + fuel = (k + fuel) + 1 by omega, waitForServiceLoop,
      body_transient q b w h0]
    simp only
    rw [ih fuel true _ (fun i hi => by
      have := h (i + 1) (by omega)
      rwa [outcome_succ_left] at this)]
    rw [retryTrace_succ_right b k]
    simp [clientAfter_succ_left, List.append_assoc]

end helpers

section claims
variable {σ T : Type}

theorem sleeps_append (a b : List Event) : sleeps (a ++ b) = sleeps a + sleeps b := by
  simp [sleeps, sleepDurations_append]

theorem sleeps_retryTrace (b : Bool) (k : Nat) : sleeps (retryTrace b k) = k := by
  simp [sleeps, sleepDurations_retryTrace]

/-- A run of `k` transient failures followed by an outcome that ends the
loop: the value returned and the world it is returned in. -/
theorem loop_transient_then_done (q : Query σ T) (w : World σ) (k fuel : Nat) (r : Result T)
    (hk : ∀ i, i < k → outcome q w.client i = Except.error Error.kNoService)
    (hr : outcome q w.client k = r) (hne : r ≠ Except.error Error.kNoService)
    (hf : k < fuel) :
    waitForService fuel (liftQuery q) w =
      some (r, ⟨clientAfter q w.client (k + 1), w.trace ++ retryTrace false k ++ [Event.call]⟩) := by
  obtain ⟨m, rfl⟩ : ∃ m, fuel = k + (m + 1) := ⟨fuel - k - 1, by omega⟩
  rw [waitForService, loop_transient q k (m + 1) false w hk, waitForServiceLoop]
  have h0 : outcome q (clientAfter q w.client k) 0 = r := by
    simpa [outcome, clientAfter] using hr
  cases r with
  | ok v =>
    rw [body_ok q _ ⟨clientAfter q w.client k, w.trace ++ retryTrace false k⟩ v h0]
    simp [clientAfter]
  | error e =>
    have he : e ≠ Error.kNoService := fun h => hne (by rw [h])
    rw [body_error q _ ⟨clientAfter q w.client k, w.trace ++ retryTrace false k⟩ e h0 he]
    simp [clientAfter]

/-- Claim C1. If the query reports the transient `kNoService` failure exactly
`k` times and then succeeds with `v`, `waitForService` (given fuel for `k + 1`
iterations) returns `Success v` unchanged, having invoked the query exactly
`k + 1` times and slept exactly `k` times. -/
theorem waitForService_transient_then_success (q : Query σ T) (w : World σ) (k fuel : Nat)
    (v : T)
    (hk : ∀ i, i < k → outcome q w.client i = Except.error Error.kNoService)
    (hv : outcome q w.client k = Except.ok v) (hf : k < fuel) :
    ∃ w1, waitForService fuel (liftQuery q) w = some (Except.ok v, w1) ∧
      w1.client = clientAfter q w.client (k + 1) ∧
      calls w1.trace = calls w.trace + (k + 1) ∧
      sleeps w1.trace = sleeps w.trace + k := by
  refine ⟨_, loop_transient_then_done q w k fuel _ hk hv (by simp) hf, rfl, ?_, ?_⟩
  · show calls (w.trace ++ retryTrace false k ++ [Event.call]) = _
    rw [calls_append, calls_append, calls_retryTrace]
    rfl
  · show sleeps (w.trace ++ retryTrace false k ++ [Event.call]) = _
    rw [sleeps_append, sleeps_append, sleeps_retryTrace]
    rfl

/-- The scenario `[Unavailable, Unavailable, Success(42)]` of the spec:
`Success(42)` after 3 calls and 2 sleeps. -/
theorem waitForService_transient_then_success_witness :
    ∃ w1, waitForService 3 (liftQuery scripted)
        ⟨[Except.error Error.kNoService, Except.error Error.kNoService, Except.ok 42], []⟩
        = some (Except.ok 42, w1) ∧
      w1.client = clientAfter scripted
        [Except.error Error.kNoService, Except.error Error.kNoService, Except.ok 42] (2 + 1) ∧
      calls w1.trace = calls [] + (2 + 1) ∧ sleeps w1.trace = sleeps [] + 2 :=
  waitForService_transient_then_success scripted
    ⟨[Except.error Error.kNoService, Except.error Error.kNoService, Except.ok 42], []⟩ 2 3 42
    (by intro i hi; interval_cases i <;> rfl) rfl (by decide)

/-- Claim C2. If the query reports the transient `kNoService` failure exactly
`k` times and then fails with an error `e` other than `kNoService`,
`waitForService` returns a failure carrying exactly `e`, after exactly `k + 1`
invocations and exactly `k` sleeps; with `k = 0` that is one invocation, no
sleep and no retry. -/
theorem waitForService_transient_then_failure (q : Query σ T) (w : World σ) (k fuel : Nat)
    (e : Error) (he : e ≠ Error.kNoService)
    (hk : ∀ i, i < k → outcome q w.client i = Except.error Error.kNoService)
    (hv : outcome q w.client k = Except.error e) (hf : k < fuel) :
    ∃ w1, waitForService fuel (liftQuery q) w = some (Except.error e, w1) ∧
      w1.client = clientAfter q w.client (k + 1) ∧
      calls w1.trace = calls w.trace + (k + 1) ∧
      sleeps w1.trace = sleeps w.trace + k := by
  have hne : (Except.error e : Result T) ≠ Except.error Error.kNoService := by
    intro h; injection h with h; exact he h
  refine ⟨_, loop_transient_then_done q w k fuel _ hk hv hne hf, rfl, ?_, ?_⟩
  · show calls (w.trace ++ retryTrace false k ++ [Event.call]) = _
    rw [calls_append, calls_append, calls_retryTrace]
    rfl
  · show sleeps (w.trace ++ retryTrace false k ++ [Event.call]) = _
    rw [sleeps_append, sleeps_append, sleeps_retryTrace]
    rfl

/-- The scenario `[PermissionDenied]` of the spec: the failure is returned
after 1 call and 0 sleeps. -/
theorem waitForService_transient_then_failure_witness :
    ∃ w1, waitForService 1 (liftQuery (scripted : Query _ Nat))
        ⟨[Except.error Error.kPermissionDenied], []⟩
        = some (Except.error Error.kPermissionDenied, w1) ∧
      w1.client = clientAfter (scripted : Query _ Nat)
        [Except.error Error.kPermissionDenied] (0 + 1) ∧
      calls w1.trace = calls [] + (0 + 1) ∧ sleeps w1.trace = sleeps [] + 0 :=
  waitForService_transient_then_failure scripted
    ⟨[Except.error Error.kPermissionDenied], []⟩ 0 1 Error.kPermissionDenied
    (by decide) (by intro i hi; omega) rfl (by decide)

/-- The loop never hands the transient error to its caller, whatever `func`
does. -/
theorem loop_not_transient (func : World σ → Result T × World σ) (fuel : Nat) :
    ∀ (b : Bool) (w w1 : World σ) (r : Result T),
      waitForServiceLoop func fuel b w = some (r, w1) → r ≠ Except.error Error.kNoService := by
  induction fuel with
  | zero => intro b w w1 r h; simp [waitForServiceLoop] at h
  | succ fuel ih =>
    intro b w w1 r h
    rw [waitForServiceLoop] at h
    unfold waitForServiceBody at h
    rcases hfun : func (w.emit Event.call) with ⟨res, w2⟩
    rw [hfun] at h
    cases res with
    | ok v =>
      simp only [Option.some.injEq, Prod.mk.injEq] at h
      rw [← h.1]; simp
    | error e =>
      by_cases he : e = Error.kNoService
      · simp only [he, ne_eq, not_true_eq_false, if_false] at h
        exact ih _ _ _ _ h
      · simp only [ne_eq, he, not_false_eq_true, if_true, Option.some.injEq,
          Prod.mk.injEq] at h
        rw [← h.1]
        intro h2; injection h2 with h2; exact he h2

/-- Claim C3. The transient error is never surfaced: whenever `waitForService`
returns, for any `func` and any fuel, the result is a success or a failure
whose error is not `kNoService`. -/
theorem waitForService_never_returns_transient (func : World σ → Result T × World σ)
    (fuel : Nat) (w w1 : World σ) (r : Result T)
    (h : waitForService fuel func w = some (r, w1)) :
    (∃ v, r = Except.ok v) ∨ (∃ e, r = Except.error e ∧ e ≠ Error.kNoService) := by
  have hne := loop_not_transient func fuel false w w1 r h
  cases r with
  | ok v => exact Or.inl ⟨v, rfl⟩
  | error e => exact Or.inr ⟨e, rfl, fun he => hne (by rw [he])⟩

/-- A run that returns a failure after two transient failures: the failure
returned is `kPermissionDenied`, not `kNoService`. -/
theorem waitForService_never_returns_transient_witness :
    waitForService 3 (liftQuery (scripted : Query _ Nat))
        ⟨[Except.error Error.kNoService, Except.error Error.kNoService,
          Except.error Error.kPermissionDenied], []⟩ =
      some (Except.error Error.kPermissionDenied, ⟨[], retryTrace false 2 ++ [Event.call]⟩) ∧
    ((∃ v, (Except.error Error.kPermissionDenied : Result Nat) = Except.ok v) ∨
      (∃ e, (Except.error Error.kPermissionDenied : Result Nat) = Except.error e ∧
        e ≠ Error.kNoService)) :=
  ⟨rfl, waitForService_never_returns_transient (liftQuery scripted) 3
    ⟨[Except.error Error.kNoService, Except.error Error.kNoService,
      Except.error Error.kPermissionDenied], []⟩
    ⟨[], retryTrace false 2 ++ [Event.call]⟩ (Except.error Error.kPermissionDenied) rfl⟩

end claims

/-! ## The runner as a two-state machine -/

section machine
variable {σ T : Type}

/-- The state `Done` is terminal. -/
theorem steps_done (func : World σ → Result T × World σ) (n : Nat) (r : Result T)
    (w : World σ) : Runner.steps func n (Runner.Done r w) = Runner.Done r w := by
  induction n with
  | zero => rfl
  | succ n ih => rw [Runner.steps, Runner.step, ih]

/-- The loop of `waitForService` with `fuel` iterations returns what the
machine holds after `fuel` steps. -/
theorem loop_eq_steps (func : World σ → Result T × World σ) (fuel : Nat) :
    ∀ (b : Bool) (w : World σ),
      waitForServiceLoop func fuel b w = (Runner.steps func fuel (Runner.Polling b w)).returned := by
  induction fuel with
  | zero => intro b w; rfl
  | succ fuel ih =>
    intro b w
    rw [waitForServiceLoop, Runner.steps, Runner.step]
    cases hbody : waitForServiceBody func b w with
    | Polling b1 w1 => exact ih b1 w1
    | Done r w1 => rw [steps_done]; rfl

theorem waitForService_eq_run (func : World σ → Result T × World σ) (fuel : Nat)
    (w : World σ) : waitForService fuel func w = (Runner.run func w fuel).returned :=
  loop_eq_steps func fuel false w

/-- The two things the loop body can do with a query. -/
theorem body_cases (q : Query σ T) (b : Bool) (w : World σ) :
    (outcome q w.client 0 = Except.error Error.kNoService ∧
      waitForServiceBody (liftQuery q) b w =
        Runner.Polling true ⟨(q w.client).2, w.trace ++ retryTrace b 1⟩) ∨
    (outcome q w.client 0 ≠ Except.error Error.kNoService ∧
      waitForServiceBody (liftQuery q) b w =
        Runner.Done (outcome q w.client 0) ⟨(q w.client).2, w.trace ++ [Event.call]⟩) := by
  by_cases h : outcome q w.client 0 = Except.error Error.kNoService
  · exact Or.inl ⟨h, body_transient q b w h⟩
  · refine Or.inr ⟨h, ?_⟩
    cases hr : outcome q w.client 0 with
    | ok v => exact body_ok q b w v hr
    | error e =>
      exact body_error q b w e hr (fun he => h (by rw [hr, he]))

/-- After `k` transient failures the machine is polling, in the world the
`k` passes have produced. -/
theorem steps_transient (q : Query σ T) (k : Nat) :
    ∀ (b : Bool) (w : World σ),
      (∀ i, i < k → outcome q w.client i = Except.error Error.kNoService) →
      Runner.steps (liftQuery q) k (Runner.Polling b w) =
        Runner.Polling (b || decide (0 < k))
          ⟨clientAfter q w.client k, w.trace ++ retryTrace b k⟩ := by
  induction k with
  | zero => intro b w _; simp [Runner.steps, clientAfter, retryTrace]
  | succ k ih =>
    intro b w h
    rw [Runner.steps, Runner.step, body_transient q b w (h 0 (Nat.succ_pos k))]
    rw [ih true _ (fun i hi => by
      have := h (i + 1) (by omega)
      rwa [outcome_succ_left] at this)]
    rw [retryTrace_succ_right b k]
    simp [clientAfter_succ_left, List.append_assoc]

theorem steps_add (func : World σ → Result T × World σ) (n m : Nat) (r : Runner σ T) :
    Runner.steps func (n + m) r = Runner.steps func m (Runner.steps func n r) := by
  induction n generalizing r with
  | zero => simp [Runner.steps]
  | succ n ih => rw [show n + 1 + m = (n + m) + 1 by omega, Runner.steps, ih, Runner.steps]

/-- After `k` transient failures and an outcome `r` that is not transient,
the machine is done from step `k + 1` on. -/
theorem steps_transient_then_done (q : Query σ T) (w : World σ) (k n : Nat) (r : Result T)
    (hk : ∀ i, i < k → outcome q w.client i = Except.error Error.kNoService)
    (hr : outcome q w.client k = r) (hne : r ≠ Except.error Error.kNoService)
    (hn : k < n) :
    Runner.run (liftQuery q) w n =
      Runner.Done r ⟨clientAfter q w.client (k + 1), w.trace ++ retryTrace false k ++ [Event.call]⟩ := by
  obtain ⟨m, rfl⟩ : ∃ m, n = k + (1 + m) := ⟨n - k - 1, by omega⟩
  rw [Runner.run, Runner.init, steps_add, steps_transient q k false w hk, steps_add]
  have h0 : outcome q (clientAfter q w.client k) 0 = r := by
    simpa [outcome, clientAfter] using hr
  have hb : Runner.steps (liftQuery q) 1
      (Runner.Polling (false || decide (0 < k))
        ⟨clientAfter q w.client k, w.trace ++ retryTrace false k⟩) =
      Runner.Done r ⟨clientAfter q w.client (k + 1),
        w.trace ++ retryTrace false k ++ [Event.call]⟩ := by
    rw [Runner.steps, Runner.steps, Runner.step]
    rcases body_cases q (false || decide (0 < k))
      ⟨clientAfter q w.client k, w.trace ++ retryTrace false k⟩ with h | h
    · exact absurd (h0.symm.trans h.1) hne
    · rw [h.2, h0]; rfl
  rw [hb, steps_done]

end machine

section machineClaims
variable {σ T : Type}

/-- Claim C4. For a query that reports `kNoService` on every call,
`waitForService` never returns: for every `N`, after `N` passes the runner is
still polling, has invoked the query exactly `N` times and has produced no
result, and `waitForService` with fuel `N` has not returned. -/
theorem waitForService_never_ready (q : Query σ T) (w : World σ)
    (h : ∀ i, outcome q w.client i = Except.error Error.kNoService) (N : Nat) :
    (Runner.run (liftQuery q) w N).isPolling = true ∧
      (Runner.run (liftQuery q) w N).result? = none ∧
      calls (Runner.run (liftQuery q) w N).world.trace = calls w.trace + N ∧
      waitForService N (liftQuery q) w = none := by
  have hrun : Runner.run (liftQuery q) w N =
      Runner.Polling (false || decide (0 < N))
        ⟨clientAfter q w.client N, w.trace ++ retryTrace false N⟩ :=
    steps_transient q N false w (fun i _ => h i)
  refine ⟨by rw [hrun]; rfl, by rw [hrun]; rfl, ?_, by rw [waitForService_eq_run, hrun]; rfl⟩
  rw [hrun]
  show calls (w.trace ++ retryTrace false N) = _
  rw [calls_append, calls_retryTrace]

/-- The query `neverReady`: still polling after 5 passes and 5 invocations. -/
theorem waitForService_never_ready_witness :
    (Runner.run (liftQuery (neverReady : Query Unit Nat)) ⟨(), []⟩ 5).isPolling = true ∧
      (Runner.run (liftQuery (neverReady : Query Unit Nat)) ⟨(), []⟩ 5).result? = none ∧
      calls (Runner.run (liftQuery (neverReady : Query Unit Nat)) ⟨(), []⟩ 5).world.trace
        = calls [] + 5 ∧
      waitForService 5 (liftQuery (neverReady : Query Unit Nat)) ⟨(), []⟩ = none :=
  waitForService_never_ready neverReady ⟨(), []⟩ (fun _ => rfl) 5

/-- Claim C5. The runner is the two-state machine Polling/Done: it starts in
Polling; from Polling a transient outcome leads to Polling, a success or a
non-transient failure leads to Done with that outcome; Done is terminal.  For
a query whose first non-transient outcome `r` is outcome number `k`, the
runner polls up to step `k` and is done with `r` after exactly `k + 1`
invocations from then on, and a second query with the same outcomes up to
number `k` gives the same result and the same number of invocations. -/
theorem runner_two_state_machine {σ2 : Type} (q : Query σ T) (w : World σ)
    (q2 : Query σ2 T) (w2 : World σ2) (k : Nat) (r : Result T)
    (hk : ∀ i, i < k → outcome q w.client i = Except.error Error.kNoService)
    (hr : outcome q w.client k = r) (hne : r ≠ Except.error Error.kNoService)
    (hagree : ∀ i, i ≤ k → outcome q2 w2.client i = outcome q w.client i) :
    (Runner.run (liftQuery q) w 0 = Runner.Polling false w) ∧
    (∀ (func : World σ → Result T × World σ) (b : Bool) (w0 : World σ),
      ((func (w0.emit Event.call)).1 = Except.error Error.kNoService →
        (Runner.step func (Runner.Polling b w0)).isPolling = true) ∧
      (∀ v, (func (w0.emit Event.call)).1 = Except.ok v →
        (Runner.step func (Runner.Polling b w0)).result? = some (Except.ok v)) ∧
      (∀ e, e ≠ Error.kNoService → (func (w0.emit Event.call)).1 = Except.error e →
        (Runner.step func (Runner.Polling b w0)).result? = some (Except.error e))) ∧
    (∀ (func : World σ → Result T × World σ) (n : Nat) (r0 : Result T) (w0 : World σ),
      Runner.steps func n (Runner.Done r0 w0) = Runner.Done r0 w0) ∧
    (∀ n, n ≤ k → (Runner.run (liftQuery q) w n).isPolling = true ∧
      calls (Runner.run (liftQuery q) w n).world.trace = calls w.trace + n) ∧
    (∀ n, k < n → (Runner.run (liftQuery q) w n).result? = some r ∧
      calls (Runner.run (liftQuery q) w n).world.trace = calls w.trace + (k + 1) ∧
      waitForService n (liftQuery q) w = (Runner.run (liftQuery q) w (k + 1)).returned) ∧
    (∀ n, (Runner.run (liftQuery q2) w2 n).result? = (Runner.run (liftQuery q) w n).result? ∧
      calls (Runner.run (liftQuery q2) w2 n).world.trace + calls w.trace =
        calls (Runner.run (liftQuery q) w n).world.trace + calls w2.trace) := by
  have hpoll : ∀ {σ0 : Type} (q0 : Query σ0 T) (w0 : World σ0),
      (∀ i, i < k → outcome q0 w0.client i = Except.error Error.kNoService) →
      ∀ n, n ≤ k → Runner.run (liftQuery q0) w0 n =
        Runner.Polling (false || decide (0 < n))
          ⟨clientAfter q0 w0.client n, w0.trace ++ retryTrace false n⟩ :=
    fun q0 w0 h0 n hn => steps_transient q0 n false w0 (fun i hi => h0 i (by omega))
  have hdoneCalls : ∀ {σ0 : Type} (q0 : Query σ0 T) (w0 : World σ0),
      calls (w0.trace ++ retryTrace false k ++ [Event.call]) = calls w0.trace + (k + 1) := by
    intro σ0 q0 w0
    rw [calls_append, calls_append, calls_retryTrace]
    rfl
  have hk2 : ∀ i, i < k → outcome q2 w2.client i = Except.error Error.kNoService :=
    fun i hi => (hagree i (by omega)).trans (hk i hi)
  have hr2 : outcome q2 w2.client k = r := (hagree k (le_refl k)).trans hr
  refine ⟨rfl, ?_, fun func n r0 w0 => steps_done func n r0 w0, ?_, ?_, ?_⟩
  · intro func b w0
    refine ⟨?_, ?_, ?_⟩
    · intro h
      rcases hf : func (w0.emit Event.call) with ⟨res, w1⟩
      rw [hf] at h
      simp only at h
      simp [Runner.step, waitForServiceBody, hf, h, Runner.isPolling]
    · intro v h
      rcases hf : func (w0.emit Event.call) with ⟨res, w1⟩
      rw [hf] at h
      simp only at h
      simp [Runner.step, waitForServiceBody, hf, h, Runner.result?]
    · intro e he h
      rcases hf : func (w0.emit Event.call) with ⟨res, w1⟩
      rw [hf] at h
      simp only at h
      simp [Runner.step, waitForServiceBody, hf, h, he, Runner.result?]
  · intro n hn
    rw [hpoll q w hk n hn]
    refine ⟨rfl, ?_⟩
    show calls (w.trace ++ retryTrace false n) = _
    rw [calls_append, calls_retryTrace]
  · intro n hn
    rw [waitForService_eq_run, steps_transient_then_done q w k n r hk hr hne hn,
      steps_transient_then_done q w k (k + 1) r hk hr hne (Nat.lt_succ_self k)]
    exact ⟨rfl, hdoneCalls q w, rfl⟩
  · intro n
    by_cases hn : n ≤ k
    · rw [hpoll q w hk n hn, hpoll q2 w2 hk2 n hn]
      refine ⟨rfl, ?_⟩
      show calls (w2.trace ++ retryTrace false n) + calls w.trace =
        calls (w.trace ++ retryTrace false n) + calls w2.trace
      rw [calls_append, calls_append, calls_retryTrace]
      omega
    · rw [steps_transient_then_done q w k n r hk hr hne (by omega),
        steps_transient_then_done q2 w2 k n r hk2 hr2 hne (by omega)]
      refine ⟨rfl, ?_⟩
      show calls (w2.trace ++ retryTrace false k ++ [Event.call]) + calls w.trace =
        calls (w.trace ++ retryTrace false k ++ [Event.call]) + calls w2.trace
      rw [hdoneCalls q w, hdoneCalls q2 w2]
      omega

/-- Two scripted queries that agree up to their first non-transient outcome
(number 1, `Success(42)`) and differ afterwards: after 5 steps both runners
hold `Success(42)` and both have invoked their query twice. -/
theorem runner_two_state_machine_witness :
    ((Runner.run (liftQuery scripted)
        ⟨[Except.error Error.kNoService, Except.ok 42, Except.error Error.kNotConnected], []⟩
        5).result? =
      (Runner.run (liftQuery scripted)
        ⟨[Except.error Error.kNoService, Except.ok 42, Except.ok 7], []⟩ 5).result? ∧
      calls (Runner.run (liftQuery scripted)
        ⟨[Except.error Error.kNoService, Except.ok 42, Except.error Error.kNotConnected], []⟩
        5).world.trace + calls [] =
      calls (Runner.run (liftQuery scripted)
        ⟨[Except.error Error.kNoService, Except.ok 42, Except.ok 7], []⟩ 5).world.trace
        + calls []) ∧
    ((Runner.run (liftQuery scripted)
        ⟨[Except.error Error.kNoService, Except.ok 42, Except.ok 7], []⟩ 5).result?
        = some (Except.ok 42) ∧
      calls (Runner.run (liftQuery scripted)
        ⟨[Except.error Error.kNoService, Except.ok 42, Except.ok 7], []⟩ 5).world.trace
        = calls [] + (1 + 1) ∧
      waitForService 5 (liftQuery scripted)
        ⟨[Except.error Error.kNoService, Except.ok 42, Except.ok 7], []⟩ =
      (Runner.run (liftQuery scripted)
        ⟨[Except.error Error.kNoService, Except.ok 42, Except.ok 7], []⟩ (1 + 1)).returned) :=
  have h := runner_two_state_machine scripted
    ⟨[Except.error Error.kNoService, Except.ok 42, Except.ok 7], []⟩ scripted
    ⟨[Except.error Error.kNoService, Except.ok 42, Except.error Error.kNotConnected], []⟩
    1 (Except.ok 42) (by intro i hi; interval_cases i; rfl) rfl (by simp)
    (by intro i hi; interval_cases i <;> rfl)
  ⟨h.2.2.2.2.2 5, h.2.2.2.2.1 5 (by decide)⟩

/-- The shape of the trace after `n` steps of the machine on a query: `j`
transient passes, followed by the final invocation once the runner is done. -/
theorem steps_trace_shape (q : Query σ T) (n : Nat) :
    ∀ (b : Bool) (w : World σ), ∃ j, j ≤ n ∧
      (((Runner.steps (liftQuery q) n (Runner.Polling b w)).isPolling = true ∧ j = n ∧
          (Runner.steps (liftQuery q) n (Runner.Polling b w)).world.trace =
            w.trace ++ retryTrace b j) ∨
        ((Runner.steps (liftQuery q) n (Runner.Polling b w)).isPolling = false ∧ j < n ∧
          (Runner.steps (liftQuery q) n (Runner.Polling b w)).world.trace =
            w.trace ++ retryTrace b j ++ [Event.call])) := by
  induction n with
  | zero =>
    intro b w
    exact ⟨0, le_refl 0, Or.inl ⟨rfl, rfl, by simp [Runner.steps, Runner.world, retryTrace]⟩⟩
  | succ n ih =>
    intro b w
    rw [Runner.steps, Runner.step]
    rcases body_cases q b w with h | h
    · rw [h.2]
      obtain ⟨j, hj, hshape⟩ := ih true ⟨(q w.client).2, w.trace ++ retryTrace b 1⟩
      refine ⟨j + 1, by omega, ?_⟩
      rw [retryTrace_succ_right b j, ← List.append_assoc]
      rcases hshape with ⟨hp, hjn, ht⟩ | ⟨hp, hjn, ht⟩
      · exact Or.inl ⟨hp, by omega, ht⟩
      · exact Or.inr ⟨hp, by omega, ht⟩
    · rw [h.2, steps_done]
      exact ⟨0, Nat.zero_le _, Or.inr ⟨rfl, Nat.succ_pos n, by simp [Runner.world, retryTrace]⟩⟩

/-- The world `waitForService` returns in: `j` transient passes and the final
invocation. -/
theorem waitForService_trace_shape (q : Query σ T) (w w1 : World σ) (fuel : Nat)
    (r : Result T) (h : waitForService fuel (liftQuery q) w = some (r, w1)) :
    ∃ j, j < fuel ∧ w1.trace = w.trace ++ retryTrace false j ++ [Event.call] := by
  rw [waitForService_eq_run, Runner.run, Runner.init] at h
  obtain ⟨j, _, hshape⟩ := steps_trace_shape q fuel false w
  cases hR : Runner.steps (liftQuery q) fuel (Runner.Polling false w) with
  | Polling b0 w0 => rw [hR] at h; simp [Runner.returned] at h
  | Done r0 w0 =>
    rw [hR] at h hshape
    simp only [Runner.returned, Option.some.injEq, Prod.mk.injEq] at h
    rcases hshape with ⟨hp, _, _⟩ | ⟨_, hjn, ht⟩
    · simp [Runner.isPolling] at hp
    · exact ⟨j, hjn, by rw [← h.2]; exact ht⟩

/-- Claim C6. The polling interval is constant, with no backoff: after `k`
transient failures the sleeps requested are `k` sleeps of exactly 100 ms,
200 ms in total for `k = 2`; and whatever the outcomes are, every sleep
`waitForService` requests, at any step and up to its return, is one of
100 ms. -/
theorem waitForService_constant_interval (q : Query σ T) (w : World σ) (k : Nat)
    (hk : ∀ i, i < k → outcome q w.client i = Except.error Error.kNoService) :
    sleepDurations (Runner.run (liftQuery q) w k).world.trace =
        sleepDurations w.trace ++ List.replicate k 100 ∧
      sleptMs (Runner.run (liftQuery q) w k).world.trace = sleptMs w.trace + 100 * k ∧
      (∀ n, ∃ j, j ≤ n ∧ sleepDurations (Runner.run (liftQuery q) w n).world.trace =
        sleepDurations w.trace ++ List.replicate j 100) ∧
      (∀ fuel r w1, waitForService fuel (liftQuery q) w = some (r, w1) →
        ∃ j, j < fuel ∧ sleepDurations w1.trace =
          sleepDurations w.trace ++ List.replicate j 100) := by
  have hrun : Runner.run (liftQuery q) w k =
      Runner.Polling (false || decide (0 < k))
        ⟨clientAfter q w.client k, w.trace ++ retryTrace false k⟩ :=
    steps_transient q k false w hk
  have hcall : sleepDurations [Event.call] = [] := rfl
  refine ⟨?_, ?_, ?_, ?_⟩
  · rw [hrun]
    show sleepDurations (w.trace ++ retryTrace false k) = _
    rw [sleepDurations_append, sleepDurations_retryTrace]
  · rw [hrun]
    show sleptMs (w.trace ++ retryTrace false k) = _
    simp [sleptMs, sleepDurations_append, sleepDurations_retryTrace]
    ring
  · intro n
    obtain ⟨j, hj, hshape⟩ := steps_trace_shape q n false w
    refine ⟨j, hj, ?_⟩
    rcases hshape with ⟨_, _, ht⟩ | ⟨_, _, ht⟩
    · rw [Runner.run, Runner.init, ht, sleepDurations_append, sleepDurations_retryTrace]
    · rw [Runner.run, Runner.init, ht, sleepDurations_append, sleepDurations_append,
        sleepDurations_retryTrace, hcall, List.append_nil]
  · intro fuel r w1 h
    obtain ⟨j, hj, ht⟩ := waitForService_trace_shape q w w1 fuel r h
    exact ⟨j, hj, by rw [ht, sleepDurations_append, sleepDurations_append,
      sleepDurations_retryTrace, hcall, List.append_nil]⟩

/-- Two transient failures: two sleeps of 100 ms, 200 ms in total. -/
theorem waitForService_constant_interval_witness :
    sleepDurations (Runner.run (liftQuery scripted)
        ⟨[Except.error Error.kNoService, Except.error Error.kNoService, Except.ok 42], []⟩
        2).world.trace = sleepDurations [] ++ List.replicate 2 100 ∧
      sleptMs (Runner.run (liftQuery scripted)
        ⟨[Except.error Error.kNoService, Except.error Error.kNoService, Except.ok 42], []⟩
        2).world.trace = sleptMs [] + 100 * 2 :=
  have h := waitForService_constant_interval scripted
    ⟨[Except.error Error.kNoService, Except.error Error.kNoService, Except.ok 42], []⟩ 2
    (by intro i hi; interval_cases i <;> rfl)
  ⟨h.1, h.2.1⟩

/-- Claim C9, as the claim states it, fails: a query that succeeds on its
first call is invoked once and no progress mark is written. -/
theorem waitForService_marks_counterexample :
    (waitForService 1 (liftQuery scripted) ⟨[Except.ok 42], []⟩).map
        (fun p => (p.1, calls p.2.trace, marks p.2.trace)) = some (Except.ok 42, 1, 0) := by
  rfl

/-- Claim C9, amended. The function `waitForService` writes one progress mark
per transient failure, that is one per sleep, and none for the invocation that
ends the loop: in a run that returns, the number of marks written is the
number of invocations less one, and equals the number of sleeps. -/
theorem waitForService_marks (q : Query σ T) (w w1 : World σ) (fuel : Nat) (r : Result T)
    (h : waitForService fuel (liftQuery q) w = some (r, w1)) :
    marks w1.trace + 1 + calls w.trace = calls w1.trace + marks w.trace ∧
      marks w1.trace + sleeps w.trace = sleeps w1.trace + marks w.trace := by
  obtain ⟨j, _, ht⟩ := waitForService_trace_shape q w w1 fuel r h
  have hc : calls [Event.call] = 1 := rfl
  have hm : marks [Event.call] = 0 := rfl
  have hs : sleeps [Event.call] = 0 := rfl
  rw [ht, marks_append, marks_append, marks_retryTrace, calls_append, calls_append,
    calls_retryTrace, sleeps_append, sleeps_append, sleeps_retryTrace, hc, hm, hs]
  constructor <;> omega

/-- The scenario `[Unavailable, Unavailable, Success(42)]`: 3 invocations,
2 sleeps and 2 progress marks. -/
theorem waitForService_marks_witness :
    waitForService 3 (liftQuery (scripted : Query _ Nat))
        ⟨[Except.error Error.kNoService, Except.error Error.kNoService, Except.ok 42], []⟩ =
      some (Except.ok 42, ⟨[], retryTrace false 2 ++ [Event.call]⟩) ∧
    calls (retryTrace false 2 ++ [Event.call]) = 3 ∧
    (marks (retryTrace false 2 ++ [Event.call]) + 1 + calls [] =
        calls (retryTrace false 2 ++ [Event.call]) + marks [] ∧
      marks (retryTrace false 2 ++ [Event.call]) + sleeps [] =
        sleeps (retryTrace false 2 ++ [Event.call]) + marks []) :=
  ⟨rfl, rfl, waitForService_marks scripted
    ⟨[Except.error Error.kNoService, Except.error Error.kNoService, Except.ok 42], []⟩
    ⟨[], retryTrace false 2 ++ [Event.call]⟩ 3 (Except.ok 42) rfl⟩

end machineClaims

/-! ## `waitForGlasses` -/

section glasses
variable {σ G : Type}

theorem listCalls_append (a b : List Event) :
    listCalls (a ++ b) = listCalls a + listCalls b := by
  simp [listCalls]

theorem obtainedIds_append (a b : List Event) :
    obtainedIds (a ++ b) = obtainedIds a ++ obtainedIds b := by
  simp [obtainedIds]

theorem emptyTrace_succ_right (j : Nat) : emptyTrace (j + 1) = emptyTrace 1 ++ emptyTrace j := by
  simp [emptyTrace]

theorem emptyTrace_succ_left (j : Nat) : emptyTrace j ++ emptyTrace 1 = emptyTrace (j + 1) := by
  induction j with
  | zero => rfl
  | succ j ih =>
    rw [emptyTrace_succ_right j, List.append_assoc, ih, ← emptyTrace_succ_right (j + 1)]

theorem listCalls_emptyTrace (j : Nat) : listCalls (emptyTrace j) = j := by
  induction j with
  | zero => rfl
  | succ j ih =>
    rw [emptyTrace, listCalls_append, ih]
    have h : listCalls [Event.print ".", Event.sleep (operator_ms 100), Event.listGlasses] = 1 :=
      rfl
    omega

theorem sleepDurations_emptyTrace (j : Nat) :
    sleepDurations (emptyTrace j) = List.replicate j 100 := by
  induction j with
  | zero => rfl
  | succ j ih =>
    rw [emptyTrace, sleepDurations_append, ih]
    rfl

theorem obtainedIds_emptyTrace (j : Nat) : obtainedIds (emptyTrace j) = [] := by
  induction j with
  | zero => rfl
  | succ j ih =>
    rw [emptyTrace, obtainedIds_append, ih]
    rfl

theorem listCalls_foundTrace (l : List String) : listCalls (foundTrace l) = 0 := by
  induction l with
  | nil => rfl
  | cons g l ih => simp [foundTrace, listCalls, Event.isList]

theorem sleepDurations_foundTrace (l : List String) : sleepDurations (foundTrace l) = [] := by
  induction l with
  | nil => rfl
  | cons g l ih => simp [foundTrace, sleepDurations, Event.sleepMs]

theorem obtainedIds_foundTrace (l : List String) : obtainedIds (foundTrace l) = [] := by
  induction l with
  | nil => rfl
  | cons g l ih => simp [foundTrace, obtainedIds, Event.obtained]

theorem printFound_eq (l : List String) :
    ∀ w : World σ, printFound w l = ⟨w.client, w.trace ++ foundTrace l⟩ := by
  induction l with
  | nil => intro w; simp [printFound, foundTrace]
  | cons g l ih =>
    intro w
    have h := ih (w.emit (Event.print ("Found : " ++ g ++ "\n")))
    simp only [printFound, List.foldl_cons] at h ⊢
    rw [h]
    simp [World.emit, foundTrace]

/-- With a non-empty list the loop is left at once: the glasses are printed
and the first one is obtained. -/
theorem glassesLoop_found (sdk : Sdk σ G) (fuel : Nat) (front : String) (rest : List String)
    (w : World σ) :
    waitForGlassesLoop sdk fuel (front :: rest) w =
      some ((sdk.obtainGlasses front w.client).1,
        ⟨(sdk.obtainGlasses front w.client).2,
          w.trace ++ foundTrace (front :: rest) ++ [Event.obtainGlasses front]⟩) := by
  cases fuel <;> simp [waitForGlassesLoop, callObtainGlasses, printFound_eq]

theorem glassesLoop_step_ok (sdk : Sdk σ G) (fuel : Nat) (w : World σ) (l : List String)
    (h : outcome sdk.listGlasses w.client 0 = Except.ok l) :
    waitForGlassesLoop sdk (fuel + 1) [] w =
      waitForGlassesLoop sdk fuel l
        ⟨(sdk.listGlasses w.client).2, w.trace ++ emptyTrace 1⟩ := by
  simp only [outcome, clientAfter] at h
  simp [waitForGlassesLoop, callListGlasses, World.emit, h, emptyTrace]

theorem glassesLoop_step_error (sdk : Sdk σ G) (fuel : Nat) (w : World σ) (e : Error)
    (h : outcome sdk.listGlasses w.client 0 = Except.error e) :
    waitForGlassesLoop sdk (fuel + 1) [] w =
      some (Except.error e, ⟨(sdk.listGlasses w.client).2, w.trace ++ emptyTrace 1⟩) := by
  simp only [outcome, clientAfter] at h
  simp [waitForGlassesLoop, callListGlasses, World.emit, h, emptyTrace]

/-- The loop entered with an empty list, when the next `m` listings are empty
too: `m` passes later the loop is where it was, `m` listings on. -/
theorem glassesLoop_empty (sdk : Sdk σ G) (m : Nat) :
    ∀ (fuel : Nat) (w : World σ),
      (∀ i, i < m → outcome sdk.listGlasses w.client i = Except.ok []) →
      waitForGlassesLoop sdk (m + fuel) [] w =
        waitForGlassesLoop sdk fuel []
          ⟨clientAfter sdk.listGlasses w.client m, w.trace ++ emptyTrace m⟩ := by
  induction m with
  | zero => intro fuel w _; simp [clientAfter, emptyTrace]
  | succ m ih =>
    intro fuel w h
    rw [show m + 1 + fuel = (m + fuel) + 1 by omega,
      glassesLoop_step_ok sdk (m + fuel) w [] (h 0 (Nat.succ_pos m))]
    rw [ih fuel _ (fun i hi => by
      have := h (i + 1) (by omega)
      rwa [outcome_succ_left] at this)]
    rw [emptyTrace_succ_right m]
    simp [clientAfter_succ_left, List.append_assoc]

/-- The first listing of `waitForGlasses`. -/
theorem waitForGlasses_first (sdk : Sdk σ G) (fuel : Nat) (w : World σ) :
    waitForGlasses sdk fuel w =
      match outcome sdk.listGlasses w.client 0 with
      | Except.error e =>
        some (Except.error e, ⟨(sdk.listGlasses w.client).2,
          w.trace ++ [Event.print "Looking for glasses...", Event.listGlasses]⟩)
      | Except.ok l =>
        waitForGlassesLoop sdk fuel l ⟨(sdk.listGlasses w.client).2,
          w.trace ++ [Event.print "Looking for glasses...", Event.listGlasses]⟩ := by
  simp only [outcome, clientAfter, waitForGlasses, callListGlasses, World.emit]
  cases h : (sdk.listGlasses w.client).1 <;> simp

/-- The state `waitForGlasses` is in when listing number `j` is made, the
`j` listings before it having been empty: the function goes on as the outcome
of that listing says. -/
theorem waitForGlasses_after_empty (sdk : Sdk σ G) (w : World σ) (j fuel : Nat)
    (hj : ∀ i, i < j → outcome sdk.listGlasses w.client i = Except.ok [])
    (hf : j ≤ fuel) :
    waitForGlasses sdk fuel w =
      match outcome sdk.listGlasses w.client j with
      | Except.error e =>
        some (Except.error e, ⟨clientAfter sdk.listGlasses w.client (j + 1),
          w.trace ++ [Event.print "Looking for glasses...", Event.listGlasses] ++ emptyTrace j⟩)
      | Except.ok l =>
        waitForGlassesLoop sdk (fuel - j) l ⟨clientAfter sdk.listGlasses w.client (j + 1),
          w.trace ++ [Event.print "Looking for glasses...", Event.listGlasses] ++ emptyTrace j⟩ := by
  rw [waitForGlasses_first]
  cases j with
  | zero => simp [clientAfter, emptyTrace]
  | succ m =>
    obtain ⟨f, rfl⟩ : ∃ f, fuel = m + (f + 1) := ⟨fuel - m - 1, by omega⟩
    rw [hj 0 (Nat.succ_pos m)]
    simp only
    have hm : ∀ i, i < m → outcome sdk.listGlasses (sdk.listGlasses w.client).2 i = Except.ok [] :=
      fun i hi => by
        have := hj (i + 1) (by omega)
        rwa [outcome_succ_left] at this
    rw [glassesLoop_empty sdk m (f + 1) _ hm]
    simp only
    rw [outcome_succ_left, show m + (f + 1) - (m + 1) = f by omega]
    have hc : (sdk.listGlasses (clientAfter sdk.listGlasses (sdk.listGlasses w.client).2 m)).2 =
        clientAfter sdk.listGlasses w.client (m + 1 + 1) := by
      rw [clientAfter_succ_left sdk.listGlasses w.client (m + 1)]
      rfl
    cases hr : outcome sdk.listGlasses
        (clientAfter sdk.listGlasses (sdk.listGlasses w.client).2 m) 0 with
    | error e =>
      have hr2 : outcome sdk.listGlasses (sdk.listGlasses w.client).2 m = Except.error e := by
        simpa [outcome, clientAfter] using hr
      rw [glassesLoop_step_error sdk f _ e hr, hr2]
      simp only
      rw [hc, ← emptyTrace_succ_left m]
      simp [List.append_assoc]
    | ok l =>
      have hr2 : outcome sdk.listGlasses (sdk.listGlasses w.client).2 m = Except.ok l := by
        simpa [outcome, clientAfter] using hr
      rw [glassesLoop_step_ok sdk f _ l hr, hr2]
      simp only
      rw [hc, ← emptyTrace_succ_left m]
      simp [List.append_assoc]

end glasses

section glassesClaims
variable {σ G : Type}

/-- Claim C7. If `listGlasses` succeeds with an empty list exactly `j` times
and then with the non-empty list `front :: rest`, `waitForGlasses` (given fuel
for `j` passes of its loop) calls `listGlasses` exactly `j + 1` times, sleeps
exactly `j` times, 100 ms each, and returns what `obtainGlasses` gives for
`front`, the first element of that list; `obtainGlasses` is called once, on
`front`. -/
theorem waitForGlasses_first_found (sdk : Sdk σ G) (w : World σ) (j fuel : Nat)
    (front : String) (rest : List String)
    (hj : ∀ i, i < j → outcome sdk.listGlasses w.client i = Except.ok [])
    (hL : outcome sdk.listGlasses w.client j = Except.ok (front :: rest))
    (hf : j ≤ fuel) :
    ∃ w1, waitForGlasses sdk fuel w =
        some ((sdk.obtainGlasses front (clientAfter sdk.listGlasses w.client (j + 1))).1, w1) ∧
      w1.client = (sdk.obtainGlasses front (clientAfter sdk.listGlasses w.client (j + 1))).2 ∧
      listCalls w1.trace = listCalls w.trace + (j + 1) ∧
      sleepDurations w1.trace = sleepDurations w.trace ++ List.replicate j 100 ∧
      obtainedIds w1.trace = obtainedIds w.trace ++ [front] := by
  rw [waitForGlasses_after_empty sdk w j fuel hj hf, hL]
  simp only
  rw [glassesLoop_found]
  refine ⟨_, rfl, rfl, ?_, ?_, ?_⟩
  · simp only [listCalls_append, listCalls_emptyTrace, listCalls_foundTrace]
    have h1 : listCalls [Event.print "Looking for glasses...", Event.listGlasses] = 1 := rfl
    have h2 : listCalls [Event.obtainGlasses front] = 0 := rfl
    omega
  · simp only [sleepDurations_append, sleepDurations_emptyTrace, sleepDurations_foundTrace]
    have h1 : sleepDurations [Event.print "Looking for glasses...", Event.listGlasses] = [] :=
      rfl
    have h2 : sleepDurations [Event.obtainGlasses front] = [] := rfl
    rw [h1, h2]
    simp
  · simp only [obtainedIds_append, obtainedIds_emptyTrace, obtainedIds_foundTrace]
    have h1 : obtainedIds [Event.print "Looking for glasses...", Event.listGlasses] = [] := rfl
    have h2 : obtainedIds [Event.obtainGlasses front] = [front] := rfl
    rw [h1, h2]
    simp

/-- Two empty listings, then the glasses "A" and "B": three listings, two
sleeps of 100 ms, and "A" is obtained. -/
theorem waitForGlasses_first_found_witness :
    ∃ w1, waitForGlasses scriptedSdk 2 ⟨[Except.ok [], Except.ok [], Except.ok ["A", "B"]], []⟩ =
        some ((scriptedSdk.obtainGlasses "A" (clientAfter scriptedSdk.listGlasses
          [Except.ok [], Except.ok [], Except.ok ["A", "B"]] (2 + 1))).1, w1) ∧
      w1.client = (scriptedSdk.obtainGlasses "A" (clientAfter scriptedSdk.listGlasses
          [Except.ok [], Except.ok [], Except.ok ["A", "B"]] (2 + 1))).2 ∧
      listCalls w1.trace = listCalls [] + (2 + 1) ∧
      sleepDurations w1.trace = sleepDurations [] ++ List.replicate 2 100 ∧
      obtainedIds w1.trace = obtainedIds [] ++ ["A"] :=
  waitForGlasses_first_found scriptedSdk
    ⟨[Except.ok [], Except.ok [], Except.ok ["A", "B"]], []⟩ 2 2 "A" ["B"]
    (by intro i hi; interval_cases i <;> rfl) rfl (by decide)

/-- Claim C8. If `listGlasses` succeeds with an empty list exactly `j` times
and then fails with the error `e` (the first call for `j = 0`, a call inside
the loop otherwise), `waitForGlasses` returns a failure carrying exactly `e`
at once: `listGlasses` has been called `j + 1` times and is not called again,
there have been `j` sleeps and no further one, and `obtainGlasses` is not
called.  The error `e` is arbitrary, `kNoService` included. -/
theorem waitForGlasses_listing_fails (sdk : Sdk σ G) (w : World σ) (j fuel : Nat) (e : Error)
    (hj : ∀ i, i < j → outcome sdk.listGlasses w.client i = Except.ok [])
    (he : outcome sdk.listGlasses w.client j = Except.error e)
    (hf : j ≤ fuel) :
    ∃ w1, waitForGlasses sdk fuel w = some (Except.error e, w1) ∧
      w1.client = clientAfter sdk.listGlasses w.client (j + 1) ∧
      listCalls w1.trace = listCalls w.trace + (j + 1) ∧
      sleeps w1.trace = sleeps w.trace + j ∧
      obtainedIds w1.trace = obtainedIds w.trace := by
  rw [waitForGlasses_after_empty sdk w j fuel hj hf, he]
  simp only
  refine ⟨_, rfl, rfl, ?_, ?_, ?_⟩
  · simp only [listCalls_append, listCalls_emptyTrace]
    have h1 : listCalls [Event.print "Looking for glasses...", Event.listGlasses] = 1 := rfl
    omega
  · simp only [sleeps, sleepDurations_append, sleepDurations_emptyTrace]
    have h1 : sleepDurations [Event.print "Looking for glasses...", Event.listGlasses] = [] :=
      rfl
    rw [h1]
    simp
  · simp only [obtainedIds_append, obtainedIds_emptyTrace]
    have h1 : obtainedIds [Event.print "Looking for glasses...", Event.listGlasses] = [] := rfl
    rw [h1]
    simp

/-- One empty listing, then `kNoService` from inside the loop: the failure is
returned after two listings and one sleep, nothing is obtained. -/
theorem waitForGlasses_listing_fails_witness :
    ∃ w1, waitForGlasses scriptedSdk 1 ⟨[Except.ok [], Except.error Error.kNoService], []⟩ =
        some (Except.error Error.kNoService, w1) ∧
      w1.client = clientAfter scriptedSdk.listGlasses
        [Except.ok [], Except.error Error.kNoService] (1 + 1) ∧
      listCalls w1.trace = listCalls [] + (1 + 1) ∧
      sleeps w1.trace = sleeps [] + 1 ∧
      obtainedIds w1.trace = obtainedIds [] :=
  waitForGlasses_listing_fails scriptedSdk
    ⟨[Except.ok [], Except.error Error.kNoService], []⟩ 1 1 Error.kNoService
    (by intro i hi; interval_cases i; rfl) rfl (by decide)

end glassesClaims

/-! ## The counters of `readPoses` -/

section poses

theorem imageLines_append (a b : List PoseOut) :
    imageLines (a ++ b) = imageLines a ++ imageLines b := by
  simp [imageLines]

/-- The counters after a list of passes: `count` has grown by the number of
passes, `successCount` by the number of passes with a good image read. -/
theorem runPasses_counts (inputs : List PassInput) :
    ∀ st : PoseState, (runPasses inputs st).count = st.count + inputs.length ∧
      (runPasses inputs st).successCount = st.successCount + imageSuccesses inputs := by
  induction inputs with
  | nil => intro st; simp [runPasses, imageSuccesses]
  | cons inp rest ih =>
    intro st
    have h := ih (readPosesPass inp st)
    simp only [runPasses, List.foldl_cons] at h ⊢
    rw [h.1, h.2]
    by_cases hi : inp.imageErr = 0
    · simp [readPosesPass, imageSuccesses, hi]
      constructor <;> ring
    · simp [readPosesPass, imageSuccesses, hi]
      ring

/-- The line a pass with a good image read prints: `c` counts the passes made
so far, the current one included; `s` counts the good image reads of the
earlier passes only, the current one is not yet counted. -/
theorem readPosesPass_line (before : List PassInput) (inp : PassInput)
    (h : inp.imageErr = 0) :
    imageLines (readPosesPass inp (runPasses before PoseState.init)).out =
      imageLines (runPasses before PoseState.init).out ++
        [(imageSuccesses before, (before.length : Int) + 1)] := by
  have hc := runPasses_counts before PoseState.init
  simp only [PoseState.init, zero_add] at hc
  simp only [readPosesPass, h, if_true]
  have hline : ∀ (o : List PoseOut) (x : PoseOut),
      (x = PoseOut.saved ∨ x = PoseOut.saveError ∨ x = PoseOut.resetError) →
      imageLines (o ++ [x]) = imageLines o := by
    intro o x hx
    rw [imageLines_append]
    rcases hx with rfl | rfl | rfl <;> simp [imageLines]
  have hfirst : imageLines ((runPasses before PoseState.init).out ++
      [PoseOut.imageSuccess (runPasses before PoseState.init).successCount
        ((runPasses before PoseState.init).count + 1) inp.poseOk]) =
      imageLines (runPasses before PoseState.init).out ++
        [(imageSuccesses before, (before.length : Int) + 1)] := by
    rw [imageLines_append]
    simp [imageLines, PoseState.init, hc.1, hc.2]
  have h1 : ∀ o : List PoseOut, imageLines (o ++ [PoseOut.saved]) = imageLines o :=
    fun o => hline o _ (Or.inl rfl)
  have h2 : ∀ o : List PoseOut, imageLines (o ++ [PoseOut.saveError]) = imageLines o :=
    fun o => hline o _ (Or.inr (Or.inl rfl))
  have h3 : ∀ o : List PoseOut, imageLines (o ++ [PoseOut.resetError]) = imageLines o :=
    fun o => hline o _ (Or.inr (Or.inr rfl))
  split_ifs <;> simp only [h1, h2, h3, hfirst]

/-- Claim C10, evaluated. On two passes that both read an image (the clock
ends the loop after the second) `readPoses` prints "Image Success 0 times out
of 1 passes" and then "Image Success 1 times out of 2 passes": `c` counts the
current pass, `s` does not count its good image read, although one pass out of
one, then two out of two, have succeeded; `successCount` is 2 once the loop is
over. -/
theorem readPoses_first_success_line :
    (readPoses 0 0 [⟨true, 0, true, 0, 16⟩, ⟨true, 0, true, 0, 20000⟩]).map
        (fun st => (imageLines st.out, st.count, st.successCount)) =
      some ([(0, 1), (1, 2)], 2, 2) ∧
    imageSuccesses [⟨true, 0, true, 0, 16⟩] = 1 ∧
    imageSuccesses [⟨true, 0, true, 0, 16⟩, ⟨true, 0, true, 0, 20000⟩] = 2 := by
  refine ⟨?_, ?_, ?_⟩ <;> rfl

end poses

end TiltFive
